import Mathlib

/-!
Verification of the polymarket-data ETL pipeline
(`src/etl/processor/polymarket_processor.py` and
`src/etl/processor/r2_processor.py`), shallowly embedded in Lean 4.

Numeric market fields are modelled as `Option ℚ`: `some q` is a value that
`pd.to_numeric(..., errors="coerce")` parses to the number `q`, and `none`
is a field that is absent or non-numeric (both coerce to NaN in the source).
Boolean flags are `Option Bool` (`none` = absent, so the `fillna` default
applies).  Floats carry no NaN payloads beyond presence, so `Option ℚ`
captures exactly the observability structure the filter manipulates.
-/

namespace Polybot

/- Upstream `Rat.sub` is marked irreducible; make it reducible here so that
concrete evaluations of `spread_calc` go through `decide`. -/
attribute [local semireducible] Rat.sub

/-- One upstream market record, restricted to the fields the processor
reads.  `id` stands for the passthrough identity of the row. -/
structure MarketRecord where
  id : Option String
  active : Option Bool
  closed : Option Bool
  archived : Option Bool
  acceptingOrders : Option Bool
  bestBid : Option ℚ
  bestAsk : Option ℚ
  spread : Option ℚ
  liquidityClob : Option ℚ
  liquidityNum : Option ℚ
  liquidity : Option ℚ
  volume24hrClob : Option ℚ
  volume24hr : Option ℚ
  deriving DecidableEq

/-- Row-wise meaning of the pandas idiom `a.where(a.notna(), b)`:
keep `a` where it is observable, otherwise fall back to `b`. -/
def whereNotna (a b : Option ℚ) : Option ℚ :=
  match a with
  | some v => some v
  | none => b

/-- Row-wise meaning of `bestAsk - bestBid` under NaN propagation:
the difference is observable only when both operands are. -/
def optSub (a b : Option ℚ) : Option ℚ :=
  match a, b with
  | some x, some y => some (x - y)
  | _, _ => none

/-- Column `volume24h_canon` of `_filter_markets_by_thresholds`:
`vol24h_clob.where(vol24h_clob.notna(), vol24h_raw).fillna(0)`. -/
def volumeCanon (r : MarketRecord) : ℚ :=
  (whereNotna r.volume24hrClob r.volume24hr).getD 0

/-- Column `liquidity_canon` of `_filter_markets_by_thresholds`:
`liq_clob.where(liq_clob.notna(), liq_num).where(x.notna(), liq_raw).fillna(0)`. -/
def liquidityCanon (r : MarketRecord) : ℚ :=
  (whereNotna (whereNotna r.liquidityClob r.liquidityNum) r.liquidity).getD 0

/-- Column `spread_calc` of `_filter_markets_by_thresholds`:
`spread.where(spread.notna(), bestAsk - bestBid)` followed by
`.where(bestBid.notna() & bestAsk.notna(), nan)`. -/
def spreadCalc (r : MarketRecord) : Option ℚ :=
  let s1 := whereNotna r.spread (optSub r.bestAsk r.bestBid)
  if r.bestBid.isSome && r.bestAsk.isSome then s1 else none

/-- A row of the canonicalized table: the original record together with the
three always-present computed columns. -/
structure CanonRow where
  raw : MarketRecord
  volume24h_canon : ℚ
  liquidity_canon : ℚ
  spread_calc : Option ℚ
  deriving DecidableEq

/-- Building the computed columns of the normalized frame. -/
def canonicalize (r : MarketRecord) : CanonRow :=
  ⟨r, volumeCanon r, liquidityCanon r, spreadCalc r⟩

/-- Spec-side helper (§4.2, §9 of the spec): first observable value of an
ordered fallback chain. -/
def firstSome : List (Option ℚ) → Option ℚ
  | [] => none
  | a :: rest =>
    match a with
    | some v => some v
    | none => firstSome rest

/-- C5 — The canonical volume is the first numerically-parseable value of
`[volume24hrClob, volume24hr]` (default `0`), and the canonical liquidity is
the first numerically-parseable value of `[liquidityClob, liquidityNum,
liquidity]` (default `0`). -/
theorem C5_fallback_chains (r : MarketRecord) :
    volumeCanon r = (firstSome [r.volume24hrClob, r.volume24hr]).getD 0 ∧
    liquidityCanon r =
      (firstSome [r.liquidityClob, r.liquidityNum, r.liquidity]).getD 0 := by
  obtain ⟨i, a, c, ar, ao, bb, ba, sp, lc, ln, lq, vc, vr⟩ := r
  constructor
  · cases vc <;> cases vr <;> rfl
  · cases lc <;> cases ln <;> cases lq <;> rfl

/-- A record carrying an explicit numeric `spread` but no `bestBid`;
the claim C1 predicts `spread_calc = 1/100` on it. -/
def cexSpreadRecord : MarketRecord :=
  ⟨none, none, none, none, none, none, some (mkRat 1 2), some (mkRat 1 100),
   none, none, none, none, none⟩

/-- C1 counterexample — `cexSpreadRecord` has the explicit numeric spread
`1/100`, yet its computed `spread_calc` is NaN (because `bestBid` is absent),
so the explicit spread is *not* accepted when bid/ask are missing. -/
theorem C1_counterexample :
    cexSpreadRecord.spread = some (mkRat 1 100) ∧
    spreadCalc cexSpreadRecord = none := by
  exact ⟨rfl, rfl⟩

/-- C1 (amended) — `spread_calc` is observable exactly when both
`bestBid` and `bestAsk` are present; in that case it equals the explicit
`spread` when present and `bestAsk - bestBid` otherwise.  The bid/ask
presence rule overrides the explicit spread. -/
theorem C1_spread_amended (r : MarketRecord) :
    (spreadCalc r).isSome = (r.bestBid.isSome && r.bestAsk.isSome) ∧
    (∀ bb ba, r.bestBid = some bb → r.bestAsk = some ba →
      spreadCalc r = some (r.spread.getD (ba - bb))) := by
  obtain ⟨i, a, c, ar, ao, bb, ba, sp, lc, ln, lq, vc, vr⟩ := r
  constructor
  · cases bb <;> cases ba <;> cases sp <;> rfl
  · intro x y hx hy
    subst hx
    subst hy
    cases sp <;> rfl

/-- Closed witness for the amended C1 at a record with both quotes. -/
theorem C1_spread_amended_witness :
    spreadCalc ⟨none, none, none, none, none, some (mkRat 2 5), some (mkRat 41 100),
      none, none, none, none, none, none⟩ = some (mkRat 1 100) := by
  have h := (C1_spread_amended ⟨none, none, none, none, none, some (mkRat 2 5),
    some (mkRat 41 100), none, none, none, none, none, none⟩).2 (mkRat 2 5)
    (mkRat 41 100) rfl rfl
  have e : mkRat 41 100 - mkRat 2 5 = mkRat 1 100 := by decide
  simpa [e] using h

/-- A record whose only observable liquidity variant is negative. -/
def cexNegLiquidity : MarketRecord :=
  ⟨none, none, none, none, none, none, none, none,
   none, none, some (-1), none, none⟩

/-- C6 counterexample — on the canonicalized row of `cexNegLiquidity`
the computed `liquidity_canon` is `-1 < 0`, refuting the unconditional
non-negativity of the computed columns. -/
theorem C6_counterexample :
    (canonicalize cexNegLiquidity).liquidity_canon < 0 := by
  decide

/-- C6 (amended) — on every row of the canonicalized table the computed
fields are present; `volume24h_canon` and `liquidity_canon` default to `0`
when all their source variants are unobservable, and they are non-negative
whenever every observable source variant is non-negative; `spread_calc` is
NaN when `spread`, `bestBid` and `bestAsk` are all missing. -/
theorem C6_computed_fields_amended (r : MarketRecord) :
    (r.volume24hrClob = none → r.volume24hr = none →
      (canonicalize r).volume24h_canon = 0) ∧
    (r.liquidityClob = none → r.liquidityNum = none → r.liquidity = none →
      (canonicalize r).liquidity_canon = 0) ∧
    (r.spread = none → r.bestBid = none → r.bestAsk = none →
      (canonicalize r).spread_calc = none) ∧
    (0 ≤ r.volume24hrClob.getD 0 → 0 ≤ r.volume24hr.getD 0 →
      0 ≤ (canonicalize r).volume24h_canon) ∧
    (0 ≤ r.liquidityClob.getD 0 → 0 ≤ r.liquidityNum.getD 0 →
      0 ≤ r.liquidity.getD 0 → 0 ≤ (canonicalize r).liquidity_canon) := by
  obtain ⟨i, a, c, ar, ao, bb, ba, sp, lc, ln, lq, vc, vr⟩ := r
  refine ⟨?_, ?_, ?_, ?_, ?_⟩
  · intro h1 h2; cases h1; cases h2; rfl
  · intro h1 h2 h3; cases h1; cases h2; cases h3; rfl
  · intro h1 h2 h3; cases h1; cases h2; cases h3; rfl
  · intro h1 h2
    cases vc <;> cases vr <;>
      simp_all [canonicalize, volumeCanon, whereNotna]
  · intro h1 h2 h3
    cases lc <;> cases ln <;> cases lq <;>
      simp_all [canonicalize, liquidityCanon, whereNotna]

/-- Closed witness for the amended C6 at the all-absent record. -/
theorem C6_computed_fields_amended_witness :
    (canonicalize ⟨none, none, none, none, none, none, none, none,
      none, none, none, none, none⟩).volume24h_canon = 0 ∧
    (canonicalize ⟨none, none, none, none, none, none, none, none,
      none, none, none, none, none⟩).liquidity_canon = 0 ∧
    (canonicalize ⟨none, none, none, none, none, none, none, none,
      none, none, none, none, none⟩).spread_calc = none := by
  have h := C6_computed_fields_amended ⟨none, none, none, none, none, none,
    none, none, none, none, none, none, none⟩
  exact ⟨h.1 rfl rfl, h.2.1 rfl rfl rfl, h.2.2.1 rfl rfl rfl⟩

/-- The keyword parameters of `_filter_markets_by_thresholds`. -/
structure FilterPolicy where
  max_spread : ℚ
  min_liquidity_clob : ℚ
  min_volume24h : ℚ
  require_live : Bool
  deriving DecidableEq

/-- The parameter defaults of `_filter_markets_by_thresholds`:
`max_spread=0.03, min_liquidity_clob=30000, min_volume24h=50000,
require_live=True`. -/
def defaultPolicy : FilterPolicy :=
  ⟨mkRat 3 100, 30000, 50000, true⟩

/-- The live mask: `(active == True) & (closed == False) & (archived ==
False) & (acceptingOrders == True)` after the fillna defaults
`True/False/False/True`. -/
def liveMask (r : MarketRecord) : Bool :=
  r.active.getD true && !(r.closed.getD false) && !(r.archived.getD false)
    && r.acceptingOrders.getD true

/-- Check `spread_calc <= max_spread` under NaN semantics: a NaN comparison is
false (the mask also requires `notna` separately, as in the source). -/
def spreadWithinMax (p : FilterPolicy) (c : CanonRow) : Bool :=
  match c.spread_calc with
  | some s => decide (s ≤ p.max_spread)
  | none => false

/-- The row mask of `_filter_markets_by_thresholds` (liveness and the three
numeric thresholds). -/
def eligible (p : FilterPolicy) (c : CanonRow) : Bool :=
  (if p.require_live then liveMask c.raw else true)
    && c.spread_calc.isSome
    && spreadWithinMax p c
    && decide (p.min_liquidity_clob ≤ c.liquidity_canon)
    && decide (p.min_volume24h ≤ c.volume24h_canon)

/-- Order of the `spread_calc` column used by the final `sort_values` (ascending,
with NaN sorted last, as pandas does with `na_position="last"`). -/
def oqLE : Option ℚ → Option ℚ → Prop
  | some x, some y => x ≤ y
  | some _, none => True
  | none, some _ => False
  | none, none => True

instance : DecidableRel oqLE := fun a b =>
  match a, b with
  | some x, some y => inferInstanceAs (Decidable (x ≤ y))
  | some _, none => inferInstanceAs (Decidable True)
  | none, some _ => inferInstanceAs (Decidable False)
  | none, none => inferInstanceAs (Decidable True)

theorem oqLE_refl (x : Option ℚ) : oqLE x x := by
  cases x <;> simp [oqLE]

theorem oqLE_total (x y : Option ℚ) : oqLE x y ∨ oqLE y x := by
  cases x <;> cases y <;> simp [oqLE]
  exact le_total _ _

theorem oqLE_trans {x y z : Option ℚ} (h1 : oqLE x y) (h2 : oqLE y z) :
    oqLE x z := by
  cases x <;> cases y <;> cases z <;> simp_all [oqLE]
  exact le_trans h1 h2

/-- The lexicographic row order of
`sort_values(["volume24h_canon", "liquidity_canon", "spread_calc"],
ascending=[False, False, True])`. -/
def keyLE (a b : CanonRow) : Prop :=
  b.volume24h_canon < a.volume24h_canon ∨
    (a.volume24h_canon = b.volume24h_canon ∧
      (b.liquidity_canon < a.liquidity_canon ∨
        (a.liquidity_canon = b.liquidity_canon ∧
          oqLE a.spread_calc b.spread_calc)))

instance : DecidableRel keyLE := fun a b => by
  unfold keyLE
  infer_instance

instance : IsTotal CanonRow keyLE := by
  constructor
  intro a b
  rcases lt_trichotomy a.volume24h_canon b.volume24h_canon with h | h | h
  · exact Or.inr (Or.inl h)
  · rcases lt_trichotomy a.liquidity_canon b.liquidity_canon with h2 | h2 | h2
    · exact Or.inr (Or.inr ⟨h.symm, Or.inl h2⟩)
    · rcases oqLE_total a.spread_calc b.spread_calc with h3 | h3
      · exact Or.inl (Or.inr ⟨h, Or.inr ⟨h2, h3⟩⟩)
      · exact Or.inr (Or.inr ⟨h.symm, Or.inr ⟨h2.symm, h3⟩⟩)
    · exact Or.inl (Or.inr ⟨h, Or.inl h2⟩)
  · exact Or.inl (Or.inl h)

instance : IsTrans CanonRow keyLE := by
  constructor
  intro a b c hab hbc
  rcases hab with h1 | ⟨e1, h1⟩
  · rcases hbc with h2 | ⟨e2, h2⟩
    · exact Or.inl (lt_trans h2 h1)
    · exact Or.inl (e2 ▸ h1)
  · rcases hbc with h2 | ⟨e2, h2⟩
    · exact Or.inl (e1 ▸ h2)
    · refine Or.inr ⟨e1.trans e2, ?_⟩
      rcases h1 with h1 | ⟨f1, h1⟩
      · rcases h2 with h2 | ⟨f2, h2⟩
        · exact Or.inl (lt_trans h2 h1)
        · exact Or.inl (f2 ▸ h1)
      · rcases h2 with h2 | ⟨f2, h2⟩
        · exact Or.inl (f1 ▸ h2)
        · exact Or.inr ⟨f1.trans f2, oqLE_trans h1 h2⟩

/-- Embeds `_filter_markets_by_thresholds`: normalize the records into the
canonicalized table, apply the row mask, and stable-sort the surviving rows
by `(volume24h_canon desc, liquidity_canon desc, spread_calc asc)`.
Pandas sorts on several columns with a stable lexicographic sort; the
stable sort is embedded as `List.insertionSort`. -/
def filterMarketsByThresholds (markets : List MarketRecord)
    (p : FilterPolicy) : List CanonRow :=
  List.insertionSort keyLE ((markets.map canonicalize).filter (eligible p))

/-- Two rows tied on all three sort keys. -/
def tieKey (a b : CanonRow) : Prop :=
  a.volume24h_canon = b.volume24h_canon ∧
    a.liquidity_canon = b.liquidity_canon ∧ a.spread_calc = b.spread_calc

instance : DecidableRel tieKey := fun a b => by
  unfold tieKey
  infer_instance

theorem keyLE_of_tie {a b : CanonRow} (h : tieKey a b) : keyLE a b :=
  Or.inr ⟨h.1, Or.inr ⟨h.2.1, h.2.2 ▸ oqLE_refl a.spread_calc⟩⟩

/-- C3 — For every input and policy the filter output is sorted by
`(volume24h_canon desc, liquidity_canon desc, spread_calc asc)`, and any two
rows tied on all three keys keep their input order: a tied pair that occurs
in order in the masked canonicalized input (which lists rows in input
order) still occurs in that order in the output. -/
theorem C3_sorted_stable (markets : List MarketRecord) (p : FilterPolicy) :
    List.Sorted keyLE (filterMarketsByThresholds markets p) ∧
    (∀ a b : CanonRow, tieKey a b →
      List.Sublist [a, b] ((markets.map canonicalize).filter (eligible p)) →
      List.Sublist [a, b] (filterMarketsByThresholds markets p)) := by
  constructor
  · exact List.sorted_insertionSort keyLE _
  · intro a b ht hs
    exact List.pair_sublist_insertionSort (keyLE_of_tie ht) hs

/-- Two tied, eligible records that differ only in their `id`. -/
def tiedRecordA : MarketRecord :=
  ⟨some "a", some true, some false, none, none, some (mkRat 2 5), some (mkRat 41 100),
   none, none, some 40000, none, some 60000, none⟩

/-- Second tied record (same numbers, different `id`). -/
def tiedRecordB : MarketRecord :=
  ⟨some "b", some true, some false, none, none, some (mkRat 2 5), some (mkRat 41 100),
   none, none, some 40000, none, some 60000, none⟩

/-- Closed witness for C3: the tied pair `A, B` stays in input order in the
filter output. -/
theorem C3_sorted_stable_witness :
    List.Sublist [canonicalize tiedRecordA, canonicalize tiedRecordB]
      (filterMarketsByThresholds [tiedRecordA, tiedRecordB] defaultPolicy) := by
  refine (C3_sorted_stable [tiedRecordA, tiedRecordB] defaultPolicy).2
    (canonicalize tiedRecordA) (canonicalize tiedRecordB) (by decide) ?_
  exact List.Sublist.refl _

/-- C4 — Every row returned by the filter is a canonicalized input row
and satisfies the whole eligibility predicate: liveness (when
`require_live`), an observable spread at most `max_spread`, liquidity at
least `min_liquidity_clob` and 24h volume at least `min_volume24h`. -/
theorem C4_output_subset_eligible (markets : List MarketRecord)
    (p : FilterPolicy) (row : CanonRow)
    (h : row ∈ filterMarketsByThresholds markets p) :
    row ∈ markets.map canonicalize ∧
    (p.require_live = true → liveMask row.raw = true) ∧
    row.spread_calc.isSome = true ∧
    (∀ s, row.spread_calc = some s → s ≤ p.max_spread) ∧
    p.min_liquidity_clob ≤ row.liquidity_canon ∧
    p.min_volume24h ≤ row.volume24h_canon := by
  rw [filterMarketsByThresholds, List.mem_insertionSort, List.mem_filter]
    at h
  obtain ⟨hmem, helig⟩ := h
  rw [eligible] at helig
  simp only [Bool.and_eq_true, decide_eq_true_eq] at helig
  obtain ⟨⟨⟨⟨hlive, hsome⟩, hsmax⟩, hliq⟩, hvol⟩ := helig
  refine ⟨hmem, ?_, hsome, ?_, hliq, hvol⟩
  · intro hrl
    rw [hrl] at hlive
    simpa using hlive
  · intro s hs
    rw [spreadWithinMax, hs] at hsmax
    exact of_decide_eq_true hsmax

/-- The spec §8 filter example: `liquidityClob` absent,
`liquidityNum=40000`, `bestBid=0.40`, `bestAsk=0.41`,
`volume24hrClob=60000`, `active=true`, `closed=false`. -/
def exampleRecord : MarketRecord :=
  ⟨some "m1", some true, some false, none, none, some (mkRat 2 5), some (mkRat 41 100),
   none, none, some 40000, none, some 60000, none⟩

/-- Closed witness for C4: the spec example passes the default thresholds
and its canonical row satisfies the eligibility bounds. -/
theorem C4_output_subset_eligible_witness :
    canonicalize exampleRecord ∈ [exampleRecord].map canonicalize ∧
    (canonicalize exampleRecord).spread_calc.isSome = true ∧
    defaultPolicy.min_liquidity_clob ≤
      (canonicalize exampleRecord).liquidity_canon ∧
    defaultPolicy.min_volume24h ≤
      (canonicalize exampleRecord).volume24h_canon := by
  have h := C4_output_subset_eligible [exampleRecord] defaultPolicy
    (canonicalize exampleRecord) (by decide)
  exact ⟨h.1, h.2.2.1, h.2.2.2.2.1, h.2.2.2.2.2⟩

/-- The loop of `_fetch_markets`.  The upstream endpoint is abstracted as a
function from the request parameters `(limit, offset)` to the decoded JSON
body, where `none` stands for a response that is not a JSON array (the
`isinstance(batch, list)` check).  `reqs` logs every issued request in
order.  `fuel` bounds the number of iterations; since every iteration that
continues appends at least one record, `maxMarkets - out.length`
iterations always suffice (`fetchGo_total_spec`), so the fuel is only a
structural-termination device, not a semantic bound. -/
def fetchGo (server : Nat → Nat → Option (List α))
    (maxMarkets pageLimit : Nat) :
    Nat → List α → Nat → List (Nat × Nat) →
      Option (List α × List (Nat × Nat))
  | 0, _, _, _ => none
  | fuel + 1, out, offset, reqs =>
    if out.length < maxMarkets then
      let lim := min pageLimit (maxMarkets - out.length)
      match server lim offset with
      | none => some (out, reqs ++ [(lim, offset)])
      | some batch =>
        if batch.length = 0 then some (out, reqs ++ [(lim, offset)])
        else if batch.length < lim then
          some (out ++ batch, reqs ++ [(lim, offset)])
        else
          fetchGo server maxMarkets pageLimit fuel (out ++ batch)
            (offset + lim) (reqs ++ [(lim, offset)])
    else some (out, reqs)

/-- Embeds `_fetch_markets`: start with no records at offset `0`. -/
def fetchMarkets (server : Nat → Nat → Option (List α))
    (maxMarkets pageLimit : Nat) : Option (List α × List (Nat × Nat)) :=
  fetchGo server maxMarkets pageLimit (maxMarkets + 1) [] 0 []

/-- A request is terminal when its response is not a list, empty, or
strictly shorter than the requested limit (the end-of-list signal). -/
def terminalResponse (server : Nat → Nat → Option (List α))
    (req : Nat × Nat) : Prop :=
  match server req.1 req.2 with
  | none => True
  | some batch => batch.length = 0 ∨ batch.length < req.1

/-- The loop always terminates with enough fuel, and it stops exactly
because the collected count reached `maxMarkets` or because the last issued
request got a terminal response. -/
theorem fetchGo_total_spec (server : Nat → Nat → Option (List α))
    (maxMarkets pageLimit : Nat) :
    ∀ (fuel : Nat) (out : List α) (offset : Nat) (reqs : List (Nat × Nat)),
      maxMarkets - out.length < fuel →
      ∃ res log,
        fetchGo server maxMarkets pageLimit fuel out offset reqs =
          some (res, log) ∧
        (maxMarkets ≤ res.length ∨
          ∃ req, log.getLast? = some req ∧ terminalResponse server req) := by
  intro fuel
  induction fuel with
  | zero => intro out offset reqs h; omega
  | succ fuel ih =>
    intro out offset reqs h
    by_cases hlt : out.length < maxMarkets
    · cases hsrv : server (min pageLimit (maxMarkets - out.length)) offset
        with
      | none =>
        refine ⟨out, reqs ++ [(min pageLimit (maxMarkets - out.length),
          offset)], ?_, Or.inr ⟨_, List.getLast?_concat _, ?_⟩⟩
        · simp [fetchGo, hlt, hsrv]
        · simp [terminalResponse, hsrv]
      | some batch =>
        by_cases hb0 : batch.length = 0
        · refine ⟨out, reqs ++ [(min pageLimit (maxMarkets - out.length),
            offset)], ?_, Or.inr ⟨_, List.getLast?_concat _, ?_⟩⟩
          · simp [fetchGo, hlt, hsrv, hb0]
          · simp [terminalResponse, hsrv, hb0]
        · by_cases hbl :
            batch.length < min pageLimit (maxMarkets - out.length)
          · refine ⟨out ++ batch, reqs ++
              [(min pageLimit (maxMarkets - out.length), offset)], ?_,
              Or.inr ⟨_, List.getLast?_concat _, ?_⟩⟩
            · simp [fetchGo, hlt, hsrv, hb0, hbl]
            · simp [terminalResponse, hsrv, hbl]
          · obtain ⟨res, log, heq, hstop⟩ := ih (out ++ batch)
              (offset + min pageLimit (maxMarkets - out.length))
              (reqs ++ [(min pageLimit (maxMarkets - out.length), offset)])
              (by simp only [List.length_append]; omega)
            refine ⟨res, log, ?_, hstop⟩
            rw [← heq]
            simp [fetchGo, hlt, hsrv, hb0, hbl]
    · exact ⟨out, reqs, by simp [fetchGo, hlt], Or.inl (by omega)⟩

/-- The §8 mock endpoint: a listing of 450 records in total, served in
slices `records[offset : offset + limit]`. -/
def mockServer450 : Nat → Nat → Option (List Nat) :=
  fun lim offset => some (((List.range 450).drop offset).take lim)

set_option maxRecDepth 100000 in
/-- C2 — The fetch always terminates, and it stops exactly when the
collected count reaches `max_records` or when the last issued request got a
response that is not a list, empty, or shorter than its requested limit.
On the §8 scenario (450 available records, `max_records=500`,
`page_size=200`) it returns exactly 450 records from three requests
`(limit, offset) = (200,0), (200,200), (100,400)` — each limit is
`min(page_size, max_records - collected)`, each offset advances by the
previous requested limit, and no fourth request is issued. -/
theorem C2_pagination :
    (∀ (α : Type) (server : Nat → Nat → Option (List α))
      (maxMarkets pageLimit : Nat),
      ∃ res log,
        fetchMarkets server maxMarkets pageLimit = some (res, log) ∧
        (maxMarkets ≤ res.length ∨
          ∃ req, log.getLast? = some req ∧ terminalResponse server req)) ∧
    fetchMarkets mockServer450 500 200 =
      some (List.range 450, [(200, 0), (200, 200), (100, 400)]) := by
  constructor
  · intro α server maxMarkets pageLimit
    exact fetchGo_total_spec server maxMarkets pageLimit (maxMarkets + 1)
      [] 0 [] (by omega)
  · decide

/-- A UTC instant as the six `strftime` components the key builder reads. -/
structure UTCTime where
  year : Nat
  month : Nat
  day : Nat
  hour : Nat
  minute : Nat
  second : Nat

/-- Two-digit zero-padded decimal field (`%m`, `%d`, `%H`, `%M`, `%S`). -/
def pad2 (n : Nat) : String :=
  if n < 10 then "0" ++ toString n else toString n

/-- Four-digit zero-padded decimal field (`%Y`). -/
def pad4 (n : Nat) : String :=
  if n < 10 then "000" ++ toString n
  else if n < 100 then "00" ++ toString n
  else if n < 1000 then "0" ++ toString n
  else toString n

/-- Rendering of `dt.strftime("%Y-%m-%d")`. -/
def fmtDay (t : UTCTime) : String :=
  pad4 t.year ++ "-" ++ pad2 t.month ++ "-" ++ pad2 t.day

/-- Rendering of `dt.strftime("%Y%m%d_%H%M%S")`. -/
def fmtCompact (t : UTCTime) : String :=
  pad4 t.year ++ pad2 t.month ++ pad2 t.day ++ "_" ++ pad2 t.hour ++
    pad2 t.minute ++ pad2 t.second

/-- Embeds `_bronze_key_markets_strategy_0`: the landing key built from one
captured timestamp.  The caller either supplies `dt` or captures
`datetime.now(timezone.utc)` once; both `strftime` renderings read the same
instant. -/
def bronzeKeyMarketsStrategy0 (t : UTCTime) : String :=
  "bronze/polymarket/markets/" ++ ("strategy=0/dt=" ++ fmtDay t ++ "/") ++
    ("markets_" ++ fmtCompact t ++ ".parquet")

/-- C10 — The key builder is a pure function of its timestamp, its
output has the fixed shape
`bronze/polymarket/markets/strategy=0/dt=YYYY-MM-DD/markets_YYYYMMDD_HHMMSS.parquet`,
and the very same rendered year, month and day components occur in the
`dt=` partition and in the filename suffix, so the two dates always
agree. -/
theorem C10_bronze_key_shape (t : UTCTime) :
    ∃ y m d hh mm ss : String,
      bronzeKeyMarketsStrategy0 t =
        "bronze/polymarket/markets/strategy=0/dt=" ++ y ++ "-" ++ m ++ "-"
          ++ d ++ "/markets_" ++ y ++ m ++ d ++ "_" ++ hh ++ mm ++ ss ++
          ".parquet" := by
  refine ⟨pad4 t.year, pad2 t.month, pad2 t.day, pad2 t.hour,
    pad2 t.minute, pad2 t.second, ?_⟩
  simp only [bronzeKeyMarketsStrategy0, fmtDay, fmtCompact,
    String.append_assoc]
  rfl

/-- The landed-object table of the object store, as far as the orchestrator
observes it: `put_parquet_df` records the dataframe under its key. -/
structure R2StoreState where
  objs : List (String × List CanonRow)

/-- Embeds `R2Processor.put_parquet_df` at the granularity the orchestrator uses:
serialize the frame and write it under `key` (newest write first). -/
def put_parquet_df (s : R2StoreState) (key : String)
    (df : List CanonRow) : R2StoreState :=
  ⟨(key, df) :: s.objs⟩

/-- Positional parameters `_filter_markets_by_thresholds` accepts: exactly
one, `markets` — the definition at line 50 has no `self` parameter and the
thresholds are keyword-only (they follow the bare `*`). -/
def filterPositionalParamCount : Nat := 1

/-- Positional arguments the bound-method call
`self._filter_markets_by_thresholds(market_data)` at line 25 passes: the
receiver `self` is prepended to the explicit argument, giving two. -/
def boundFilterCallArgCount : Nat := 2

/-- The error Python raises at line 25 on every run. -/
def filterArityTypeError : String :=
  "TypeError: _filter_markets_by_thresholds() takes 1 positional argument but 2 were given"

/-- Embeds the call `self._filter_markets_by_thresholds(market_data)` at
line 25 under Python calling conventions: the call raises `TypeError` when
it passes more positional arguments than the callee accepts, and only
runs the filter (with its keyword defaults) when the arity matches. -/
def callBoundFilter (market_data : List MarketRecord) :
    Except String (List CanonRow) :=
  if boundFilterCallArgCount ≤ filterPositionalParamCount then
    Except.ok (filterMarketsByThresholds market_data defaultPolicy)
  else
    Except.error filterArityTypeError

/-- Embeds `fetch_markets_for_strategy_0`: fetch (500 records max, pages
of 200), call the filter as a bound method, and — if that call returned —
build the bronze key from the captured timestamp `now`, store the frame,
and return the frame, the key, and the `s3://` pointer of lines 45-47.
The outer `Option` is the fuel artifact of the fetch (always `some`); the
inner `Except` carries a Python exception escaping the run. -/
def fetch_markets_for_strategy_0
    (server : Nat → Nat → Option (List MarketRecord)) (bucket : String)
    (now : UTCTime) (s : R2StoreState) :
    Option (Except String
      (List CanonRow × String × String × R2StoreState)) :=
  match fetchMarkets server 500 200 with
  | none => none
  | some (market_data, _) =>
    some (match callBoundFilter market_data with
      | Except.error e => Except.error e
      | Except.ok filtered_market_data =>
        let key := bronzeKeyMarketsStrategy0 now
        let s2 := put_parquet_df s key filtered_market_data
        Except.ok (filtered_market_data, key,
          "s3://" ++ bucket ++ "/" ++ key, s2))

/-- C7 — The claim describes the intended compose-and-return contract that
lines 45-47 implement, but the method defined at line 50 takes no `self`,
so the bound call at line 25 passes two positional arguments to a
one-positional-parameter function: every run of the orchestrator raises
`TypeError` at the filter call and no run ever reaches the key build, the
store, or the return of the `(table, key, uri)` triple. -/
theorem C7_orchestrator_type_error
    (server : Nat → Nat → Option (List MarketRecord)) (bucket : String)
    (now : UTCTime) (s : R2StoreState) :
    fetch_markets_for_strategy_0 server bucket now s =
      some (Except.error filterArityTypeError) ∧
    (∀ result,
      fetch_markets_for_strategy_0 server bucket now s ≠
        some (Except.ok result)) := by
  obtain ⟨res, log, heq, -⟩ :=
    fetchGo_total_spec server 500 200 501 [] 0 [] (by omega)
  have hm : fetchMarkets server 500 200 = some (res, log) := heq
  have h1 : fetch_markets_for_strategy_0 server bucket now s =
      some (Except.error filterArityTypeError) := by
    simp [fetch_markets_for_strategy_0, hm, callBoundFilter,
      boundFilterCallArgCount, filterPositionalParamCount]
  refine ⟨h1, fun result hr => ?_⟩
  rw [h1] at hr
  simp at hr

/-- One stored object of the S3-compatible store: body bytes plus the
content-type and content-encoding markers `put_bytes` sets. -/
structure StoredObject where
  data : List Nat
  contentType : String
  contentEncoding : Option String
  deriving DecidableEq

/-- The visible-object table of the bucket, newest write first. -/
structure ByteStore where
  objs : List (String × StoredObject)
  deriving DecidableEq

/-- Embeds `R2Processor.put_bytes`: a single atomic write that overwrites any
previous object under `key`. -/
def put_bytes (s : ByteStore) (key : String) (data : List Nat)
    (ct : String) (ce : Option String) : ByteStore :=
  ⟨(key, ⟨data, ct, ce⟩) :: s.objs⟩

/-- Embeds `R2Processor.get_bytes`: body of the current object under `key`, if
any. -/
def get_bytes (s : ByteStore) (key : String) : Option (List Nat) :=
  (s.objs.lookup key).map StoredObject.data

/-- The gzip magic prefix `0x1F 0x8B`. -/
def gzipMagic : List Nat := [0x1F, 0x8B]

/-- Embeds `R2Processor.put_json`, parameterized by the external serializer
`enc` (`json.dumps(...).encode("utf-8")`) and compressor `gz`
(`gzip.GzipFile(...).write`): optionally gzip the UTF-8 JSON payload and
set the `gzip` content-encoding marker. -/
def put_json {J : Type} (enc : J → List Nat) (gz : List Nat → List Nat)
    (s : ByteStore) (key : String) (obj : J) (compress_gzip : Bool) :
    ByteStore :=
  let raw := enc obj
  if compress_gzip then
    put_bytes s key (gz raw) "application/json" (some "gzip")
  else
    put_bytes s key raw "application/json" none

/-- Embeds `R2Processor.get_json`, parameterized by the external parser `dec` and
decompressor `gunzip`: read the bytes, gunzip them iff they begin with the
gzip magic prefix (the stored content-encoding marker is never consulted),
then parse. -/
def get_json {J : Type} (dec : List Nat → Option J)
    (gunzip : List Nat → List Nat) (s : ByteStore) (key : String) :
    Option J :=
  match get_bytes s key with
  | none => none
  | some raw =>
    if raw.take 2 = gzipMagic then dec (gunzip raw) else dec raw

/-- Transport that drops the content-encoding header of every stored
object, leaving the bytes intact. -/
def stripContentEncoding (s : ByteStore) : ByteStore :=
  ⟨s.objs.map (fun kv => (kv.1, ⟨kv.2.data, kv.2.contentType, none⟩))⟩

theorem lookup_put_bytes (s : ByteStore) (key : String) (data : List Nat)
    (ct : String) (ce : Option String) :
    get_bytes (put_bytes s key data ct ce) key = some data := by
  simp [get_bytes, put_bytes, List.lookup]

/-- C8 — For every serializer/compressor pair with the properties the
source relies on (parsing inverts serialization, gunzip inverts gzip, gzip
output starts with the magic bytes `0x1F 0x8B`, JSON text does not),
`get_json` after `put_json` reproduces the value — with compression off
and on, and even when the content-encoding header was lost in transport,
since detection uses only the magic-byte prefix. -/
theorem C8_json_round_trip {J : Type} (enc : J → List Nat)
    (dec : List Nat → Option J) (gz gunzip : List Nat → List Nat)
    (hdec : ∀ v, dec (enc v) = some v)
    (hgunzip : ∀ b, gunzip (gz b) = b)
    (hmagic : ∀ b, (gz b).take 2 = gzipMagic)
    (hnomagic : ∀ v, (enc v).take 2 ≠ gzipMagic) :
    ∀ (s : ByteStore) (key : String) (v : J) (compress_gzip : Bool),
      get_json dec gunzip (put_json enc gz s key v compress_gzip) key =
        some v ∧
      get_json dec gunzip
          (stripContentEncoding (put_json enc gz s key v compress_gzip))
          key =
        some v := by
  intro s key v compress_gzip
  have hstrip : ∀ (s2 : ByteStore),
      get_bytes (stripContentEncoding s2) key = get_bytes s2 key := by
    intro s2
    simp only [get_bytes, stripContentEncoding]
    induction s2.objs with
    | nil => rfl
    | cons kv rest ih =>
      by_cases hk : (key == kv.1) = true
      · simp [List.lookup, hk]
      · simp only [Bool.not_eq_true] at hk
        simpa [List.lookup, hk] using ih
  cases compress_gzip
  · have hput : put_json enc gz s key v false =
        put_bytes s key (enc v) "application/json" none := by
      simp [put_json]
    constructor
    · simp only [hput, get_json, lookup_put_bytes]
      rw [if_neg (hnomagic v), hdec]
    · simp only [hput, get_json, hstrip, lookup_put_bytes]
      rw [if_neg (hnomagic v), hdec]
  · have hput : put_json enc gz s key v true =
        put_bytes s key (gz (enc v)) "application/json" (some "gzip") := by
      simp [put_json]
    constructor
    · simp only [hput, get_json, lookup_put_bytes]
      rw [if_pos (hmagic (enc v)), hgunzip, hdec]
    · simp only [hput, get_json, hstrip, lookup_put_bytes]
      rw [if_pos (hmagic (enc v)), hgunzip, hdec]

/-- Concrete serializer for the C8 witness: a leading `0x7B` byte (the
UTF-8 "left curly bracket" that opens a JSON object) followed by the
payload; JSON text never starts with `0x1F`. -/
def encW (v : List Nat) : List Nat := 0x7B :: v

/-- Concrete parser inverting `encW`. -/
def decW : List Nat → Option (List Nat)
  | 0x7B :: rest => some rest
  | _ => none

/-- Concrete lossless compressor for the C8 witness: the gzip magic
prefix followed by the payload. -/
def gzW (b : List Nat) : List Nat := gzipMagic ++ b

/-- Concrete decompressor inverting `gzW`. -/
def gunzipW (b : List Nat) : List Nat := b.drop 2

/-- Closed witness for C8: a concrete value round-trips through a
compressed `put_json`/`get_json` pair and through an uncompressed one. -/
theorem C8_json_round_trip_witness :
    get_json decW gunzipW (put_json encW gzW ⟨[]⟩ "k" [7, 7] true) "k" =
      some [7, 7] ∧
    get_json decW gunzipW (put_json encW gzW ⟨[]⟩ "k" [7, 7] false) "k" =
      some [7, 7] := by
  have hdec : ∀ v, decW (encW v) = some v := fun v => rfl
  have hgunzip : ∀ b, gunzipW (gzW b) = b := fun b => rfl
  have hmagic : ∀ b, (gzW b).take 2 = gzipMagic := fun b => rfl
  have hnomagic : ∀ v, (encW v).take 2 ≠ gzipMagic := by
    intro v h
    rw [encW, gzipMagic] at h
    cases v <;> simp [List.take] at h
  exact ⟨(C8_json_round_trip encW decW gzW gunzipW hdec hgunzip hmagic
      hnomagic ⟨[]⟩ "k" [7, 7] true).1,
    (C8_json_round_trip encW decW gzW gunzipW hdec hgunzip hmagic
      hnomagic ⟨[]⟩ "k" [7, 7] false).1⟩

/-- The multipart-capable remote store: visible objects, open multipart
sessions `(uploadId, targetKey, uploadedParts)`, and the upload id the
service hands out next. -/
structure S3State where
  objs : List (String × List Nat)
  sessions : List (Nat × String × List (Nat × List Nat))
  nextUploadId : Nat
  deriving DecidableEq

/-- Embeds `create_multipart_upload`: open a session, return its upload id. -/
def create_multipart_upload (s : S3State) (key : String) : S3State × Nat :=
  (⟨s.objs, (s.nextUploadId, key, []) :: s.sessions, s.nextUploadId + 1⟩,
    s.nextUploadId)

/-- Embeds `upload_part`: record the chunk in the session with this upload id. -/
def upload_part (s : S3State) (uploadId partNumber : Nat)
    (chunk : List Nat) : S3State :=
  ⟨s.objs,
    s.sessions.map (fun e =>
      if e.1 = uploadId then (e.1, e.2.1, e.2.2 ++ [(partNumber, chunk)])
      else e),
    s.nextUploadId⟩

/-- Embeds `abort_multipart_upload`: discard the session; nothing becomes
visible. -/
def abort_multipart_upload (s : S3State) (uploadId : Nat) : S3State :=
  ⟨s.objs, s.sessions.filter (fun e => e.1 != uploadId), s.nextUploadId⟩

/-- Embeds `complete_multipart_upload`: publish the concatenation of the
uploaded parts under the key and close the session. -/
def complete_multipart_upload (s : S3State) (uploadId : Nat)
    (key : String) : S3State :=
  let parts := ((s.sessions.lookup uploadId).map (fun e => e.2)).getD []
  ⟨(key, (parts.map Prod.snd).foldl (fun a b => a ++ b) []) :: s.objs,
    s.sessions.filter (fun e => e.1 != uploadId), s.nextUploadId⟩

/-- The slices `data[start : start + part_size]` for
`start in range(0, len(data), part_size)`.  The fuel is bounded by the
data length: every step drops `partSize ≥ 1` bytes. -/
def chunksGo (partSize : Nat) : Nat → List Nat → List (List Nat)
  | 0, _ => []
  | _, [] => []
  | fuel + 1, l => l.take partSize :: chunksGo partSize fuel (l.drop partSize)

/-- All part-sized slices of the payload, in order. -/
def chunks (partSize : Nat) (l : List Nat) : List (List Nat) :=
  chunksGo partSize l.length l

/-- The part-upload loop of `put_large_bytes_multipart`, numbering parts
from 1.  `partFails pn = true` injects an upload failure (the client call
raising) at part `pn`; the returned flag says whether every part
succeeded. -/
def uploadPartsGo (partFails : Nat → Bool) (uploadId : Nat) :
    List (List Nat) → Nat → S3State → S3State × Bool
  | [], _, s => (s, true)
  | chunk :: rest, partNumber, s =>
    if partFails partNumber then (s, false)
    else
      uploadPartsGo partFails uploadId rest (partNumber + 1)
        (upload_part s uploadId partNumber chunk)

/-- Embeds `put_large_bytes_multipart`: open a session, upload the part-size
slices sequentially, and commit; on any part failure — or on a failing
commit — abort the session and propagate the error.  `partFails` and
`completeFails` inject the remote failures. -/
def put_large_bytes_multipart (s : S3State) (key : String)
    (data : List Nat) (part_size_mb : Nat) (partFails : Nat → Bool)
    (completeFails : Bool) : S3State × Except String Unit :=
  let part_size := max 5 part_size_mb * 1024 * 1024
  let created := create_multipart_upload s key
  let uploaded :=
    uploadPartsGo partFails created.2 (chunks part_size data) 1 created.1
  if uploaded.2 then
    if completeFails then
      (abort_multipart_upload uploaded.1 created.2,
        Except.error "complete_multipart_upload failed")
    else
      (complete_multipart_upload uploaded.1 created.2 key, Except.ok ())
  else
    (abort_multipart_upload uploaded.1 created.2,
      Except.error "upload_part failed")

theorem upload_part_objs (s : S3State) (uploadId partNumber : Nat)
    (chunk : List Nat) :
    (upload_part s uploadId partNumber chunk).objs = s.objs := rfl

theorem upload_part_filter_ne (s : S3State) (uploadId partNumber : Nat)
    (chunk : List Nat) :
    (upload_part s uploadId partNumber chunk).sessions.filter
        (fun e => e.1 != uploadId) =
      s.sessions.filter (fun e => e.1 != uploadId) := by
  simp only [upload_part]
  induction s.sessions with
  | nil => rfl
  | cons e rest ih =>
    by_cases he : e.1 = uploadId
    · simp [List.filter, he, ih]
    · simp [List.filter, he, ih]

theorem uploadPartsGo_state (partFails : Nat → Bool) (uploadId : Nat) :
    ∀ (cs : List (List Nat)) (partNumber : Nat) (s : S3State),
      (uploadPartsGo partFails uploadId cs partNumber s).1.objs = s.objs ∧
      (uploadPartsGo partFails uploadId cs partNumber s).1.sessions.filter
          (fun e => e.1 != uploadId) =
        s.sessions.filter (fun e => e.1 != uploadId) := by
  intro cs
  induction cs with
  | nil => intro partNumber s; exact ⟨rfl, rfl⟩
  | cons chunk rest ih =>
    intro partNumber s
    by_cases hf : partFails partNumber
    · simp [uploadPartsGo, hf]
    · obtain ⟨h1, h2⟩ :=
        ih (partNumber + 1) (upload_part s uploadId partNumber chunk)
      rw [upload_part_objs] at h1
      rw [upload_part_filter_ne] at h2
      simp only [uploadPartsGo, hf, if_false, Bool.false_eq_true]
      exact ⟨h1, h2⟩

/-- C9 — If any part upload (or the final commit) fails, the multipart
write aborts the session before propagating the error: afterwards the
store holds exactly the visible objects and open sessions it started with,
so no object appears at the target key and no orphaned incomplete session
remains.  The hypothesis says the service hands out a fresh upload id, as
S3 does. -/
theorem C9_multipart_abort (s : S3State) (key : String) (data : List Nat)
    (part_size_mb : Nat) (partFails : Nat → Bool) (completeFails : Bool)
    (hfresh : ∀ e ∈ s.sessions, e.1 ≠ s.nextUploadId) :
    ∀ s2 err,
      put_large_bytes_multipart s key data part_size_mb partFails
          completeFails = (s2, Except.error err) →
      s2.objs = s.objs ∧ s2.sessions = s.sessions := by
  intro s2 err h
  have habort : ∀ (st : S3State × Bool),
      st = uploadPartsGo partFails s.nextUploadId
        (chunks (max 5 part_size_mb * 1024 * 1024) data) 1
        (create_multipart_upload s key).1 →
      (abort_multipart_upload st.1 s.nextUploadId).objs = s.objs ∧
      (abort_multipart_upload st.1 s.nextUploadId).sessions =
        s.sessions := by
    intro st hst
    obtain ⟨h1, h2⟩ := uploadPartsGo_state partFails s.nextUploadId
      (chunks (max 5 part_size_mb * 1024 * 1024) data) 1
      (create_multipart_upload s key).1
    rw [← hst] at h1 h2
    have hcreated :
        ((create_multipart_upload s key).1).sessions.filter
            (fun e => e.1 != s.nextUploadId) =
          s.sessions := by
      simp only [create_multipart_upload, List.filter]
      rw [bne_self_eq_false]
      exact List.filter_eq_self.mpr (fun e he => by
        simpa using hfresh e he)
    constructor
    · rw [abort_multipart_upload]
      exact h1.trans rfl
    · show st.1.sessions.filter (fun e => e.1 != s.nextUploadId) =
        s.sessions
      rw [h2, hcreated]
  rw [put_large_bytes_multipart] at h
  by_cases hup : (uploadPartsGo partFails s.nextUploadId
      (chunks (max 5 part_size_mb * 1024 * 1024) data) 1
      (create_multipart_upload s key).1).2
  · by_cases hcf : completeFails
    · simp only [create_multipart_upload] at h hup
      simp only [hup, hcf, if_true] at h
      obtain ⟨h1, -⟩ := Prod.mk.injEq .. ▸ h
      rw [← h1]
      exact habort _ rfl
    · simp only [create_multipart_upload] at h hup
      simp only [hup, hcf, if_true, if_false] at h
      simp at h
  · simp only [create_multipart_upload] at h hup
    simp only [hup, if_false, Bool.false_eq_true] at h
    obtain ⟨h1, -⟩ := Prod.mk.injEq .. ▸ h
    rw [← h1]
    exact habort _ rfl

/-- Closed witness for C9: in a store with one old object and one open
foreign session, a payload whose first part upload fails leaves objects
and sessions exactly as they were. -/
theorem C9_multipart_abort_witness :
    (put_large_bytes_multipart ⟨[("old", [9])], [(5, "x", [])], 6⟩ "k"
        [1, 2, 3] 16 (fun _ => true) false).1.objs = [("old", [9])] ∧
    (put_large_bytes_multipart ⟨[("old", [9])], [(5, "x", [])], 6⟩ "k"
        [1, 2, 3] 16 (fun _ => true) false).1.sessions =
      [(5, "x", [])] := by
  exact C9_multipart_abort ⟨[("old", [9])], [(5, "x", [])], 6⟩ "k"
    [1, 2, 3] 16 (fun _ => true) false (by decide)
    (put_large_bytes_multipart ⟨[("old", [9])], [(5, "x", [])], 6⟩ "k"
      [1, 2, 3] 16 (fun _ => true) false).1 "upload_part failed" rfl

end Polybot
